import Mathlib

/-!
Verification of the transform/load core of the energy-data ETL pipeline
(`src/fuel_price/transform.py`, `src/fuel_price/config.py`,
`src/fuel_price/load.py`, `src/fuel_price/load_redshift.py`).

Numeric cells are modelled with `ℚ` (pandas float64 arithmetic on the small
decimal inputs of the claims is exact or far more precise than the gaps the
theorems exhibit).  A nullable pandas cell is an `Option`; `none` is the
null marker (`NaN`/`NaT`).  DataFrames are lists of typed rows, carrying the
list of raw column names where a function inspects the header.
-/

deriving instance DecidableEq for Except

namespace EnergyData

/-! ### Small parsing helpers

`parseRat` models `pd.to_numeric` / `astype(float)` applied to one cell:
an optional sign, an integer part and an optional decimal fraction.
`parseYM` models `pd.to_datetime(..., format="%Y/%m")` on one cell, and
`parseDateISO` models `pd.to_datetime` on a `YYYY-MM-DD` cell.  Each
returns `none` exactly when the cell does not parse. -/

/-- Split a character list on a separator (the cell-level core of splitting a
string on `"."`, `"/"` or `"-"`). -/
def splitOnChar (sep : Char) : List Char → List (List Char)
  | [] => [[]]
  | c :: cs =>
    let r := splitOnChar sep cs
    if c = sep then [] :: r
    else
      match r with
      | [] => [[c]]
      | g :: gs => (c :: g) :: gs

/-- Parse a non-empty all-digit character list as a natural number. -/
def digitsToNat (cs : List Char) : Option Nat :=
  if cs = [] then none
  else
    cs.foldl
      (fun acc c =>
        match acc with
        | none => none
        | some n => if c.isDigit then some (n * 10 + (c.toNat - 48)) else none)
      (some 0)

def parseRatChars (cs : List Char) : Option ℚ :=
  match splitOnChar '.' cs with
  | [ip] => (digitsToNat ip).map (fun n => (n : ℚ))
  | [ip, fp] =>
    match digitsToNat ip, digitsToNat fp with
    | some i, some f => some ((i : ℚ) + (f : ℚ) / (10 : ℚ) ^ fp.length)
    | _, _ => none
  | _ => none

def parseRat (s : String) : Option ℚ :=
  match s.data with
  | '-' :: rest => (parseRatChars rest).map (fun q => -q)
  | cs => parseRatChars cs

def parseYM (s : String) : Option (Nat × Nat) :=
  match splitOnChar '/' s.data with
  | [ys, ms] =>
    match digitsToNat ys, digitsToNat ms with
    | some y, some m => if 1 ≤ m ∧ m ≤ 12 then some (y, m) else none
    | _, _ => none
  | _ => none

def parseDateISO (s : String) : Option (Nat × Nat × Nat) :=
  match splitOnChar '-' s.data with
  | [ys, ms, ds] =>
    match digitsToNat ys, digitsToNat ms, digitsToNat ds with
    | some y, some m, some d =>
      if 1 ≤ m ∧ m ≤ 12 ∧ 1 ≤ d ∧ d ≤ 31 then some (y, m, d) else none
    | _, _, _ => none
  | _ => none

/-! ### Generic list machinery shared by the embedded pandas operations -/

/-- `drop_duplicates()` (all columns): keep the first occurrence of each
distinct element, preserving order. -/
def dedupKeepFirst {α : Type} [DecidableEq α] (l : List α) : List α :=
  l.foldl (fun acc x => if x ∈ acc then acc else acc ++ [x]) []

/-- `drop_duplicates(subset=[key])`: keep the first row for each key. -/
def dedupByKeyKeepFirst {α κ : Type} [DecidableEq κ] (f : α → κ) (l : List α) : List α :=
  l.foldl (fun acc x => if (acc.map f).count (f x) ≠ 0 then acc else acc ++ [x]) []

/-- Insertion step for `sortBy`. -/
def insertBy {α : Type} (le : α → α → Bool) (x : α) : List α → List α
  | [] => [x]
  | y :: ys => if le x y then x :: y :: ys else y :: insertBy le x ys

/-- `sort_values`: insertion sort by a boolean comparison. -/
def sortBy {α : Type} (le : α → α → Bool) (l : List α) : List α :=
  l.foldr (insertBy le) []

/-! ### Column-name normalization (`clean_fuel_price`)

The source applies, in order: `str.lower()`, `replace(" ", "_")`,
`replace(".", "_")`, `normalize("NFKD")` and an ASCII re-encode that drops
non-ASCII code points.  `asciiFold` composes the NFKD + ASCII steps for the
accented characters that occur in these datasets (the decomposition keeps
the base letter and the encode drops the combining mark); it also absorbs
uppercase accented letters, which Python's `lower()` has already lowered at
this point while `Char.toLower` only lowers ASCII. -/

def asciiFold (c : Char) : List Char :=
  if c.toNat < 128 then [c]
  else if c = 'á' ∨ c = 'Á' then ['a']
  else if c = 'é' ∨ c = 'É' then ['e']
  else if c = 'í' ∨ c = 'Í' then ['i']
  else if c = 'ó' ∨ c = 'Ó' then ['o']
  else if c = 'ú' ∨ c = 'Ú' then ['u']
  else if c = 'ü' ∨ c = 'Ü' then ['u']
  else if c = 'ñ' ∨ c = 'Ñ' then ['n']
  else []

def normalizeCol (s : String) : String :=
  let lowered := s.data.map Char.toLower
  let spaceRepl := lowered.map (fun c => if c = ' ' then '_' else c)
  let dotRepl := spaceRepl.map (fun c => if c = '.' then '_' else c)
  ⟨(dotRepl.map asciiFold).flatten⟩

/-! ### Fuel-price cleaning (`clean_fuel_price`, `config.py`) -/

/-- One raw fuel row: the cells of the six relevant columns, as read from the
source file (text cells; `none` is a null cell).  `volumen` arrives numeric. -/
structure RawFuelRow where
  periodo : Option String
  precio_surtidor : Option String
  producto : Option String
  provincia : Option String
  bandera : Option String
  volumen : Option ℚ
deriving DecidableEq

/-- A raw fuel DataFrame: the raw header (arbitrary naming, checked after
normalization) plus the rows. -/
structure RawFuelDF where
  cols : List String
  rows : List RawFuelRow
deriving DecidableEq

/-- A fuel row after type coercion / cleaning.  Fields stay `Option` so that
"no nulls" is a provable property of the output, not one forced by typing. -/
structure FuelRow where
  periodo : Option (Nat × Nat)
  precio_surtidor : Option ℚ
  producto : Option String
  provincia : Option String
  bandera : Option String
  volumen : Option ℚ
deriving DecidableEq

/-- `PRODUCTO_MAP` from `config.py`: lowercased raw label to canonical label.
The entry `"n/d"` maps to `np.nan`, i.e. `none`, exactly like an absent key. -/
def producto_map (s : String) : Option String :=
  if s = "nafta (super) entre 92 y 95 ron" then some "NAFTA GRADO 2"
  else if s = "nafta (premium) de más de 95 ron" then some "NAFTA GRADO 3"
  else if s = "nafta (común) hasta 92 ron" then some "NAFTA GRADO 1"
  else if s = "gas oil grado 2" then some "GASOIL GRADO 2"
  else if s = "gas oil grado 3" then some "GASOIL GRADO 3"
  else if s = "gnc" then some "GNC"
  else if s = "kerosene" then some "KEROSENE"
  else if s = "glpa" then some "GLPA"
  else none

/-- The canonical product vocabulary: the non-null range of `PRODUCTO_MAP`. -/
def canonicalProducts : List String :=
  ["NAFTA GRADO 2", "NAFTA GRADO 3", "NAFTA GRADO 1", "GASOIL GRADO 2",
   "GASOIL GRADO 3", "GNC", "KEROSENE", "GLPA"]

def requiredFuelCols : List String := ["periodo", "precio_surtidor", "producto"]

/-- `set(required_cols) - set(df.columns)` after normalization, kept in the
order of `required_cols`. -/
def missingFuelCols (cols : List String) : List String :=
  requiredFuelCols.filter (fun c => decide (c ∉ cols.map normalizeCol))

inductive SchemaError where
  | missingCols (missing : List String)
deriving DecidableEq

/-- Type coercions of `clean_fuel_price`: `pd.to_datetime(periodo,
format="%Y/%m", errors="coerce")` and `pd.to_numeric(precio_surtidor,
errors="coerce")`; a failed parse becomes the null marker. -/
def coerceFuelRow (r : RawFuelRow) : FuelRow :=
  { periodo := r.periodo.bind parseYM
    precio_surtidor := r.precio_surtidor.bind parseRat
    producto := r.producto
    provincia := r.provincia
    bandera := r.bandera
    volumen := r.volumen }

def lowerStr (s : String) : String := ⟨s.data.map Char.toLower⟩

/-- Ascending order on the coerced `periodo` column (all values are `some`
once the null rows are dropped; `none` sorts last, like `NaT`). -/
def periodoLE (a b : Option (Nat × Nat)) : Bool :=
  match a, b with
  | some x, some y => decide (x.1 < y.1 ∨ (x.1 = y.1 ∧ x.2 ≤ y.2))
  | some _, none => true
  | none, some _ => false
  | none, none => true

/-- `clean_fuel_price` (`transform.py`): normalize the header, fail with the
list of missing required columns, coerce `periodo`/`precio_surtidor`, drop
rows null in either, drop exact-duplicate rows (keep first), sort by
`periodo`, map `producto` through `PRODUCTO_MAP` after lowercasing, and drop
rows whose product did not map. -/
def clean_fuel_price (df : RawFuelDF) : Except SchemaError (List FuelRow) :=
  let missing := missingFuelCols df.cols
  if missing ≠ [] then .error (.missingCols missing)
  else
    let coerced := df.rows.map coerceFuelRow
    let nonNull := coerced.filter (fun r => r.periodo.isSome && r.precio_surtidor.isSome)
    let deduped := dedupKeepFirst nonNull
    let sorted := sortBy (fun a b => periodoLE a.periodo b.periodo) deduped
    let mapped := sorted.map (fun r =>
      { r with producto := (r.producto.map lowerStr).bind producto_map })
    .ok (mapped.filter (fun r => r.producto.isSome))

/-! ### Brent cleaning (`clean_brent_price`) -/

/-- One raw Brent row: `date` and `brent_price` cells as read from the CSV
(`Date`/`brent_price_usd` renaming is a pure header operation and the model
addresses cells by field). -/
structure RawBrentRow where
  date : Option String
  brent_price : Option String
deriving DecidableEq

/-- A cleaned Brent row.  Fields stay `Option` so "no nulls" is provable. -/
structure BrentRow where
  date : Option (Nat × Nat × Nat)
  brent_price : Option ℚ
deriving DecidableEq

/-- The typing step of `clean_brent_price`: `pd.to_datetime(df["date"])` and
`df["brent_price"].astype(float)` are applied to whole columns WITHOUT
`errors="coerce"`, so one unparsable cell raises and aborts the clean.  The
model therefore fails (returns `none`) as soon as any date or price cell of
the null-free rows does not parse. -/
def parseBrentRows : List RawBrentRow → Option (List BrentRow)
  | [] => some []
  | r :: rs =>
    match r.date.bind parseDateISO, r.brent_price.bind parseRat with
    | some d, some p => (parseBrentRows rs).map (fun out => ⟨some d, some p⟩ :: out)
    | _, _ => none

/-- Ascending order on the parsed `date` column (`none` sorts last). -/
def dateLE (a b : Option (Nat × Nat × Nat)) : Bool :=
  match a, b with
  | some x, some y =>
    decide (x.1 < y.1 ∨ (x.1 = y.1 ∧ (x.2.1 < y.2.1 ∨ (x.2.1 = y.2.1 ∧ x.2.2 ≤ y.2.2))))
  | some _, none => true
  | none, some _ => false
  | none, none => true

/-- `clean_brent_price` (`transform.py`): `dropna()` over both columns, parse
dates then prices (raising — `.error ()` — on any malformed cell),
`drop_duplicates(subset=["date"])` keeping the first occurrence, and sort by
date with the index reset. -/
def clean_brent_price (rows : List RawBrentRow) : Except Unit (List BrentRow) :=
  let nonNull := rows.filter (fun r => r.date.isSome && r.brent_price.isSome)
  match parseBrentRows nonNull with
  | none => .error ()
  | some typed =>
    let deduped := dedupByKeyKeepFirst BrentRow.date typed
    .ok (sortBy (fun a b => dateLE a.date b.date) deduped)

/-! ### Dollar (USD/ARS) analytics aggregation
(`dollar_price_aggs_for_analytics`) -/

/-- One daily USD/ARS row of the wide-format clean artifact consumed by the
analytics aggregation (columns `date`, `usd_ars_oficial`, `usd_ars_blue`,
`brecha_cambiaria_pct`). -/
structure DollarDailyRow where
  date : Nat × Nat × Nat
  usd_ars_oficial : Option ℚ
  usd_ars_blue : Option ℚ
  brecha_cambiaria_pct : Option ℚ
deriving DecidableEq

/-- One row of the monthly USD/ARS analytics artifact. -/
structure DollarMonthlyRow where
  year : Nat
  month : Nat
  avg_usd_ars_oficial : ℚ
  avg_usd_ars_blue : ℚ
  avg_brecha_cambiaria_pct : ℚ
  record_count : Nat
deriving DecidableEq

/-- Modelled from the spec: the daily exchange-rate spread column
`brecha_cambiaria_pct` of the wide-format clean artifact.  The pivot step
that computes it is not part of the sources under `src/` (only
`dollar_price_aggs_for_analytics`, its loaders and the extraction tests
reference the column); the spec defines the spread as
`(parallel_rate − official_rate) / official_rate × 100`. -/
def brechaDaily (oficial blue : ℚ) : ℚ := (blue - oficial) / oficial * 100

/-- The spread formula of the spec applied to MONTHLY aggregated rates, for
comparison with what the code computes. -/
def spec_spread_pct (official_rate parallel_rate : ℚ) : ℚ :=
  (parallel_rate - official_rate) / official_rate * 100

/-- Mean of a float column, skipping nulls (`pandas` `"mean"`). -/
def meanOpt (l : List (Option ℚ)) : ℚ :=
  let v := l.filterMap id
  if v.length = 0 then 0 else v.sum / v.length

/-- Ascending order on `(year, month)` group keys (`groupby` sorts keys). -/
def ymLE (a b : Nat × Nat) : Bool :=
  decide (a.1 < b.1 ∨ (a.1 = b.1 ∧ a.2 ≤ b.2))

/-- `dollar_price_aggs_for_analytics` (`transform.py`): group the daily rows
by `(year, month)` and take the mean of each rate column — including the mean
of the DAILY `brecha_cambiaria_pct` values — plus a count of non-null
official rates. -/
def dollar_price_aggs_for_analytics (rows : List DollarDailyRow) : List DollarMonthlyRow :=
  let keyOf : DollarDailyRow → Nat × Nat := fun r => (r.date.1, r.date.2.1)
  let keys := sortBy ymLE (dedupKeepFirst (rows.map keyOf))
  keys.map (fun k =>
    let grp := rows.filter (fun r => decide (keyOf r = k))
    { year := k.1
      month := k.2
      avg_usd_ars_oficial := meanOpt (grp.map (fun r => r.usd_ars_oficial))
      avg_usd_ars_blue := meanOpt (grp.map (fun r => r.usd_ars_blue))
      avg_brecha_cambiaria_pct := meanOpt (grp.map (fun r => r.brecha_cambiaria_pct))
      record_count := (grp.filterMap (fun r => r.usd_ars_oficial)).length })

/-! ### Fuel aggregation (`fuel_price_aggs`) -/

/-- The `(periodo, provincia, bandera, producto)` group key. -/
abbrev FuelKey := (Nat × Nat) × String × String × String

/-- One row of the aggregated fuel artifact. -/
structure FuelAggRow where
  periodo : Nat × Nat
  provincia : String
  bandera : String
  producto : String
  precio_surtidor_mediana : ℚ
  volumen_total : ℚ
deriving DecidableEq

def fuelKeyOf (r : FuelRow) : FuelKey :=
  (r.periodo.getD (0, 0), r.provincia.getD "", r.bandera.getD "", r.producto.getD "")

/-- Ascending lexicographic order on fuel group keys. -/
def fuelKeyLE (a b : FuelKey) : Bool :=
  ((compare a.1.1 b.1.1).then ((compare a.1.2 b.1.2).then
    ((compare a.2.1 b.2.1).then ((compare a.2.2.1 b.2.2.1).then
      (compare a.2.2.2 b.2.2.2))))) ≠ .gt

/-- Median of a float column, skipping nulls (`pandas` `"median"`): sort the
non-null values; odd count takes the middle value, even count the mean of the
two middle values (0 for an empty column, which `pandas` reports as `NaN`). -/
def medianOpt (l : List (Option ℚ)) : ℚ :=
  let v := sortBy (fun a b => decide (a ≤ b)) (l.filterMap id)
  let n := v.length
  if n = 0 then 0
  else if n % 2 = 1 then v.getD (n / 2) 0
  else (v.getD (n / 2 - 1) 0 + v.getD (n / 2) 0) / 2

/-- `fuel_price_aggs` (`transform.py`): restrict to the relevant columns,
group by `(periodo, provincia, bandera, producto)` — `groupby` drops rows
with a null group key — and aggregate the median of `precio_surtidor` and the
sum of `volumen` (null volumes are skipped by `"sum"`). -/
def fuel_price_aggs (rows : List FuelRow) : List FuelAggRow :=
  let keyed := rows.filter (fun r =>
    r.periodo.isSome && r.provincia.isSome && r.bandera.isSome && r.producto.isSome)
  let keys := sortBy fuelKeyLE (dedupKeepFirst (keyed.map fuelKeyOf))
  keys.map (fun k =>
    let grp := keyed.filter (fun r => decide (fuelKeyOf r = k))
    { periodo := k.1
      provincia := k.2.1
      bandera := k.2.2.1
      producto := k.2.2.2
      precio_surtidor_mediana := medianOpt (grp.map (fun r => r.precio_surtidor))
      volumen_total := (grp.filterMap (fun r => r.volumen)).sum })

/-! ### Warehouse load semantics (`load.py`, `load_redshift.py`)

A destination table is a list of `(key, value)` rows (the key is the
table's declared primary key; `load_timestamp` is warehouse-stamped metadata
and is abstracted away).  `INSERT ... ON CONFLICT (key) DO UPDATE` processed
through `execute_values` is `upsertTable`; `COPY ... FROM STDIN` and a plain
`INSERT` are appends.  Each model function returns the table produced by a
successful run together with the row count the Python function returns;
loaders are modelled on artifacts that already carry exactly the destination
columns (the Python column validation/selection is the identity there). -/

/-- One `ON CONFLICT (key) DO UPDATE` row: update every conflicting row's
value columns in place, else append at the end. -/
def upsertRow {κ ν : Type} [DecidableEq κ] (t : List (κ × ν)) (r : κ × ν) : List (κ × ν) :=
  if r.1 ∈ t.map Prod.fst then t.map (fun p => if p.1 = r.1 then r else p)
  else t ++ [r]

/-- A whole upsert batch, processed in row order. -/
def upsertTable {κ ν : Type} [DecidableEq κ] (t : List (κ × ν)) (rows : List (κ × ν)) :
    List (κ × ν) :=
  rows.foldl upsertRow t

/-- `load_brent_to_staging`: optional truncate, then upsert on `date`. -/
def load_brent_to_staging (table : List ((Nat × Nat × Nat) × ℚ))
    (df : List ((Nat × Nat × Nat) × ℚ)) (truncate : Bool) :
    List ((Nat × Nat × Nat) × ℚ) × Nat :=
  (upsertTable (if truncate then [] else table) df, df.length)

/-- `load_usd_ars_to_staging`: optional truncate, then upsert on `fecha`;
the value columns are `(usd_ars_oficial, usd_ars_blue, brecha_cambiaria_pct)`
with the spread column optional. -/
def load_usd_ars_to_staging (table : List ((Nat × Nat × Nat) × (ℚ × ℚ × Option ℚ)))
    (df : List ((Nat × Nat × Nat) × (ℚ × ℚ × Option ℚ))) (truncate : Bool) :
    List ((Nat × Nat × Nat) × (ℚ × ℚ × Option ℚ)) × Nat :=
  (upsertTable (if truncate then [] else table) df, df.length)

/-- `load_fuel_to_staging`: optional truncate, then `COPY` into
`staging.fuel_prices`, whose primary key is a synthetic identity column —
a plain bulk append with NO conflict handling. -/
def load_fuel_to_staging (table : List FuelRow) (df : List FuelRow) (truncate : Bool) :
    List FuelRow × Nat :=
  ((if truncate then [] else table) ++ df, df.length)

/-- `load_brent_to_analytics`: upsert on `(year, month)`; values are
`(avg, min, max, record_count)`. -/
def load_brent_to_analytics (table : List ((Nat × Nat) × (ℚ × ℚ × ℚ × Nat)))
    (df : List ((Nat × Nat) × (ℚ × ℚ × ℚ × Nat))) (truncate : Bool) :
    List ((Nat × Nat) × (ℚ × ℚ × ℚ × Nat)) × Nat :=
  (upsertTable (if truncate then [] else table) df, df.length)

/-- `load_fuel_to_analytics`: upsert on
`(year, month, provincia, bandera, producto)`; values are
`(precio_surtidor_mediana, volumen_total)`. -/
def load_fuel_to_analytics (table : List (((Nat × Nat) × String × String × String) × (ℚ × ℚ)))
    (df : List (((Nat × Nat) × String × String × String) × (ℚ × ℚ))) (truncate : Bool) :
    List (((Nat × Nat) × String × String × String) × (ℚ × ℚ)) × Nat :=
  (upsertTable (if truncate then [] else table) df, df.length)

/-- `load_usd_ars_to_analytics`: upsert on `(year, month)`; values are
`(avg_oficial, avg_blue, avg_brecha, record_count)`. -/
def load_usd_ars_to_analytics (table : List ((Nat × Nat) × (ℚ × ℚ × ℚ × Nat)))
    (df : List ((Nat × Nat) × (ℚ × ℚ × ℚ × Nat))) (truncate : Bool) :
    List ((Nat × Nat) × (ℚ × ℚ × ℚ × Nat)) × Nat :=
  (upsertTable (if truncate then [] else table) df, df.length)

/-- `load_to_redshift` (`load_redshift.py`): an empty DataFrame returns 0
before a connection is even opened; otherwise optional truncate followed by a
plain `INSERT` (Redshift does not enforce primary keys, so there is no
conflict handling — a bulk append). -/
def load_to_redshift {α : Type} (table : List α) (df : List α) (truncate : Bool) :
    List α × Nat :=
  if df.isEmpty then (table, 0)
  else ((if truncate then [] else table) ++ df, df.length)

/-! ### Transactional execution of one load unit

Both loaders run `TRUNCATE` (optional) and the bulk insert on one connection
inside one transaction: `load.py` commits once after the insert, rolls back
in `except` and closes cursor and connection in `finally`;
`get_redshift_connection` commits after the `with` body, rolls back on any
exception and closes in its own `finally`.  The model executes the unit's
statements against a working snapshot, publishing it only at the final
commit; `failAt = some i` injects a failure at statement `i` (a database or
transport error), after which the working snapshot is discarded. -/

/-- Run the statements in order from index `i`; `none` when the injected
failure is reached. -/
def execOpsFrom {T : Type} (failAt : Option Nat) :
    List (T → T) → Nat → T → Option T
  | [], _, cur => some cur
  | op :: rest, i, cur =>
    if failAt = some i then none else execOpsFrom failAt rest (i + 1) (op cur)

/-- Outcome of one load unit: the committed table, whether the connection
ended closed, and whether the unit raised. -/
structure LoadOutcome (T : Type) where
  committed : T
  connClosed : Bool
  raised : Bool
deriving DecidableEq

/-- One all-or-nothing load unit: execute the statements on a working copy of
the committed state; on success commit the working copy, on failure roll back
(keep the committed state); the connection is closed in `finally` on both
paths. -/
def runLoadUnit {T : Type} (ops : List (T → T)) (failAt : Option Nat) (committed : T) :
    LoadOutcome T :=
  match execOpsFrom failAt ops 0 committed with
  | some working => { committed := working, connClosed := true, raised := false }
  | none => { committed := committed, connClosed := true, raised := true }

/-- The statement list of `load_brent_to_staging`: optional `TRUNCATE`, then
the `execute_values` upsert batch. -/
def brentStagingOps (df : List ((Nat × Nat × Nat) × ℚ)) (truncate : Bool) :
    List (List ((Nat × Nat × Nat) × ℚ) → List ((Nat × Nat × Nat) × ℚ)) :=
  (if truncate then [fun _ => []] else []) ++ [fun t => upsertTable t df]

/-- The statement list of `load_fuel_to_staging`: optional `TRUNCATE`, then
the `COPY` append. -/
def fuelStagingOps (df : List FuelRow) (truncate : Bool) :
    List (List FuelRow → List FuelRow) :=
  (if truncate then [fun _ => []] else []) ++ [fun t => t ++ df]

/-- The statement list of a non-empty `load_to_redshift` call: optional
`TRUNCATE`, then the `execute_values` append. -/
def redshiftOps {α : Type} (df : List α) (truncate : Bool) : List (List α → List α) :=
  (if truncate then [fun _ => []] else []) ++ [fun t => t ++ df]


/-! ### General lemmas about the embedded pandas list operations -/

theorem insertBy_perm {α : Type} (le : α → α → Bool) (x : α) (l : List α) :
    List.Perm (insertBy le x l) (x :: l) := by
  induction l with
  | nil => simp [insertBy]
  | cons y ys ih =>
    simp only [insertBy]
    split
    · exact List.Perm.refl _
    · exact (ih.cons y).trans (List.Perm.swap x y ys)

theorem sortBy_perm {α : Type} (le : α → α → Bool) (l : List α) :
    List.Perm (sortBy le l) l := by
  induction l with
  | nil => simp [sortBy]
  | cons x xs ih => exact (insertBy_perm le x (sortBy le xs)).trans (ih.cons x)

theorem mem_sortBy {α : Type} (le : α → α → Bool) (l : List α) (x : α) :
    x ∈ sortBy le l ↔ x ∈ l := (sortBy_perm le l).mem_iff

theorem mem_dedupKeepFirst_aux {α : Type} [DecidableEq α] (l : List α) (acc : List α) (x : α)
    (h : x ∈ l.foldl (fun acc y => if y ∈ acc then acc else acc ++ [y]) acc) :
    x ∈ acc ∨ x ∈ l := by
  induction l generalizing acc with
  | nil => exact Or.inl h
  | cons y ys ih =>
    simp only [List.foldl_cons] at h
    rcases ih _ h with hacc | hmem
    · by_cases hy : y ∈ acc
      · rw [if_pos hy] at hacc; exact Or.inl hacc
      · rw [if_neg hy] at hacc
        rcases List.mem_append.1 hacc with h1 | h1
        · exact Or.inl h1
        · simp at h1; subst h1; simp
    · simp [hmem]

theorem mem_dedupKeepFirst {α : Type} [DecidableEq α] (l : List α) (x : α)
    (h : x ∈ dedupKeepFirst l) : x ∈ l := by
  rcases mem_dedupKeepFirst_aux l [] x h with h1 | h1
  · simp at h1
  · exact h1

theorem mem_dedupByKeyKeepFirst_aux {α κ : Type} [DecidableEq κ] (f : α → κ)
    (l : List α) (acc : List α) (x : α)
    (h : x ∈ l.foldl (fun acc y => if (acc.map f).count (f y) ≠ 0 then acc else acc ++ [y]) acc) :
    x ∈ acc ∨ x ∈ l := by
  induction l generalizing acc with
  | nil => exact Or.inl h
  | cons y ys ih =>
    simp only [List.foldl_cons] at h
    rcases ih _ h with hacc | hmem
    · split at hacc
      · exact Or.inl hacc
      · rcases List.mem_append.1 hacc with h1 | h1
        · exact Or.inl h1
        · simp at h1; subst h1; simp
    · simp [hmem]

theorem mem_dedupByKeyKeepFirst {α κ : Type} [DecidableEq κ] (f : α → κ) (l : List α) (x : α)
    (h : x ∈ dedupByKeyKeepFirst f l) : x ∈ l := by
  rcases mem_dedupByKeyKeepFirst_aux f l [] x h with h1 | h1
  · simp at h1
  · exact h1

theorem nodup_map_dedupByKeyKeepFirst_aux {α κ : Type} [DecidableEq κ] (f : α → κ)
    (l : List α) (acc : List α) (h : (acc.map f).Nodup) :
    ((l.foldl (fun acc y => if (acc.map f).count (f y) ≠ 0 then acc else acc ++ [y]) acc).map f).Nodup := by
  induction l generalizing acc with
  | nil => exact h
  | cons y ys ih =>
    simp only [List.foldl_cons]
    split
    · exact ih _ h
    · rename_i hcount
      apply ih
      rw [not_not] at hcount
      have hnot : f y ∉ acc.map f := List.count_eq_zero.1 hcount
      simp only [List.map_append, List.map_cons, List.map_nil]
      exact List.Nodup.append h (List.nodup_singleton _)
        (List.disjoint_singleton.2 hnot)

theorem nodup_map_dedupByKeyKeepFirst {α κ : Type} [DecidableEq κ] (f : α → κ) (l : List α) :
    ((dedupByKeyKeepFirst f l).map f).Nodup :=
  nodup_map_dedupByKeyKeepFirst_aux f l [] (by simp)

/-! ### Lemmas about the upsert load semantics -/

variable {κ ν : Type} [DecidableEq κ]

theorem mem_keys_upsertRow (t : List (κ × ν)) (r : κ × ν) (k : κ)
    (h : k ∈ t.map Prod.fst) : k ∈ (upsertRow t r).map Prod.fst := by
  unfold upsertRow
  split
  · rcases List.mem_map.1 h with ⟨p, hp, hpk⟩
    refine List.mem_map.2 ⟨if p.1 = r.1 then r else p, List.mem_map_of_mem _ hp, ?_⟩
    split
    · rename_i heq; rw [← hpk, heq]
    · exact hpk
  · rw [List.map_append]
    exact List.mem_append_left _ h

theorem self_mem_keys_upsertRow (t : List (κ × ν)) (r : κ × ν) :
    r.1 ∈ (upsertRow t r).map Prod.fst := by
  unfold upsertRow
  split
  · rename_i hin
    rcases List.mem_map.1 hin with ⟨p, hp, hpk⟩
    refine List.mem_map.2 ⟨if p.1 = r.1 then r else p, List.mem_map_of_mem _ hp, ?_⟩
    rw [if_pos hpk]
  · simp

theorem mem_keys_upsertTable (t : List (κ × ν)) (rows : List (κ × ν)) (k : κ)
    (h : k ∈ t.map Prod.fst) : k ∈ (upsertTable t rows).map Prod.fst := by
  induction rows generalizing t with
  | nil => exact h
  | cons r rs ih => exact ih _ (mem_keys_upsertRow t r k h)

theorem filter_key_map_replace (ps : List (κ × ν)) (r : κ × ν) (k : κ) (hk : k ≠ r.1) :
    (ps.map (fun p => if p.1 = r.1 then r else p)).filter (fun p => decide (p.1 = k)) =
      ps.filter (fun p => decide (p.1 = k)) := by
  induction ps with
  | nil => rfl
  | cons p ps ih =>
    simp only [List.map_cons, List.filter_cons]
    by_cases hp : p.1 = r.1
    · rw [if_pos hp]
      have h1 : (decide (r.1 = k)) = false := by
        simp only [decide_eq_false_iff_not]; intro hc; exact absurd hc.symm hk
      have h2 : (decide (p.1 = k)) = false := by
        simp only [decide_eq_false_iff_not]; intro hc; rw [hp] at hc; exact absurd hc.symm hk
      rw [h1, h2]
      exact ih
    · rw [if_neg hp]
      rcases h : decide (p.1 = k) with _ | _ <;> simp [List.filter_cons, h, ih]

theorem filter_key_upsertRow (t : List (κ × ν)) (r : κ × ν) (k : κ) (hk : k ≠ r.1) :
    (upsertRow t r).filter (fun p => decide (p.1 = k)) =
      t.filter (fun p => decide (p.1 = k)) := by
  unfold upsertRow
  split
  · exact filter_key_map_replace t r k hk
  · rw [List.filter_append]
    have : ([r].filter (fun p => decide (p.1 = k))) = [] := by
      simp only [List.filter_cons, List.filter_nil]
      have h1 : (decide (r.1 = k)) = false := by
        simp only [decide_eq_false_iff_not]; intro hc; exact absurd hc.symm hk
      rw [h1]
      rfl
    rw [this, List.append_nil]

theorem filter_key_upsertTable (t : List (κ × ν)) (rows : List (κ × ν)) (k : κ)
    (hk : k ∉ rows.map Prod.fst) :
    (upsertTable t rows).filter (fun p => decide (p.1 = k)) =
      t.filter (fun p => decide (p.1 = k)) := by
  induction rows generalizing t with
  | nil => rfl
  | cons r rs ih =>
    simp only [List.map_cons, List.mem_cons] at hk
    push_neg at hk
    rw [upsertTable, List.foldl_cons]
    have := ih (upsertRow t r) hk.2
    rw [upsertTable] at this
    rw [this, filter_key_upsertRow t r k hk.1]

theorem rows_at_key_upsertRow (t : List (κ × ν)) (r : κ × ν) (p : κ × ν)
    (hp : p ∈ upsertRow t r) (hk : p.1 = r.1) : p = r := by
  unfold upsertRow at hp
  split at hp
  · rcases List.mem_map.1 hp with ⟨q, hq, hqe⟩
    by_cases hq1 : q.1 = r.1
    · rw [if_pos hq1] at hqe; exact hqe.symm
    · rw [if_neg hq1] at hqe; subst hqe; exact absurd hk hq1
  · rename_i hnot
    rcases List.mem_append.1 hp with h1 | h1
    · exact absurd (hk ▸ List.mem_map_of_mem Prod.fst h1) hnot
    · simpa using h1
  
theorem upsertRow_eq_self (t : List (κ × ν)) (r : κ × ν)
    (hin : r.1 ∈ t.map Prod.fst) (hall : ∀ p ∈ t, p.1 = r.1 → p = r) :
    upsertRow t r = t := by
  unfold upsertRow
  rw [if_pos hin]
  have : ∀ p ∈ t, (if p.1 = r.1 then r else p) = p := by
    intro p hp
    split
    · rename_i hpe; exact (hall p hp hpe).symm
    · rfl
  calc t.map (fun p => if p.1 = r.1 then r else p) = t.map id := List.map_congr_left this
    _ = t := List.map_id t

theorem upsertTable_idem (t : List (κ × ν)) (rows : List (κ × ν))
    (h : (rows.map Prod.fst).Nodup) :
    upsertTable (upsertTable t rows) rows = upsertTable t rows := by
  induction rows generalizing t with
  | nil => rfl
  | cons r rs ih =>
    simp only [List.map_cons, List.nodup_cons] at h
    obtain ⟨hnotin, hnd⟩ := h
    have hcons : ∀ (t0 : List (κ × ν)),
        upsertTable t0 (r :: rs) = upsertTable (upsertRow t0 r) rs := fun _ => rfl
    have hkey : r.1 ∈ (upsertTable (upsertRow t r) rs).map Prod.fst :=
      mem_keys_upsertTable _ rs r.1 (self_mem_keys_upsertRow t r)
    have hall : ∀ p ∈ upsertTable (upsertRow t r) rs, p.1 = r.1 → p = r := by
      intro p hp hpk
      have hmemf : p ∈ (upsertTable (upsertRow t r) rs).filter (fun q => decide (q.1 = r.1)) :=
        List.mem_filter.2 ⟨hp, by simp [hpk]⟩
      rw [filter_key_upsertTable (upsertRow t r) rs r.1 hnotin] at hmemf
      exact rows_at_key_upsertRow t r p (List.mem_filter.1 hmemf).1 hpk
    have hstep : upsertRow (upsertTable (upsertRow t r) rs) r = upsertTable (upsertRow t r) rs :=
      upsertRow_eq_self _ r hkey hall
    rw [hcons t, hcons (upsertTable (upsertRow t r) rs), hstep]
    exact ih (upsertRow t r) hnd

/-! ### Lemmas about load-unit execution, vocabulary and cleaner outputs -/

theorem execOpsFrom_fail {T : Type} (i : Nat) (ops : List (T → T)) (j : Nat) (cur : T)
    (hj : j ≤ i) (hi : i < j + ops.length) :
    execOpsFrom (some i) ops j cur = none := by
  induction ops generalizing j cur with
  | nil => simp at hi; omega
  | cons op rest ih =>
    unfold execOpsFrom
    by_cases hij : i = j
    · simp [hij]
    · rw [if_neg (by simp; omega)]
      exact ih (j + 1) (op cur) (by omega) (by simpa [Nat.add_comm, Nat.add_assoc] using
        (by simp [List.length_cons] at hi; omega : i < (j + 1) + rest.length))

theorem runLoadUnit_closed {T : Type} (ops : List (T → T)) (failAt : Option Nat) (t : T) :
    (runLoadUnit ops failAt t).connClosed = true := by
  unfold runLoadUnit
  rcases execOpsFrom failAt ops 0 t with _ | w <;> rfl

theorem runLoadUnit_fail {T : Type} (ops : List (T → T)) (i : Nat) (t : T)
    (hi : i < ops.length) :
    runLoadUnit ops (some i) t = ⟨t, true, true⟩ := by
  unfold runLoadUnit
  rw [execOpsFrom_fail i ops 0 t (Nat.zero_le i) (by simpa using hi)]

theorem producto_map_mem (s p : String) (h : producto_map s = some p) :
    p ∈ canonicalProducts := by
  unfold producto_map at h
  split_ifs at h <;> simp_all [canonicalProducts]

theorem parseBrentRows_mem (rows : List RawBrentRow) (out : List BrentRow)
    (h : parseBrentRows rows = some out) :
    ∀ r ∈ out, r.date.isSome ∧ r.brent_price.isSome := by
  induction rows generalizing out with
  | nil =>
    simp only [parseBrentRows, Option.some_inj] at h
    subst h; intro r hr; simp at hr
  | cons x xs ih =>
    unfold parseBrentRows at h
    rcases hd : x.date.bind parseDateISO with _ | d <;> rw [hd] at h
    · simp at h
    · rcases hp : x.brent_price.bind parseRat with _ | p <;> rw [hp] at h
      · simp at h
      · rcases hrec : parseBrentRows xs with _ | out2 <;> rw [hrec] at h
        · simp at h
        · dsimp only at h
          rw [Option.map_some'] at h
          injection h with h
          subst h
          intro r hr
          rcases List.mem_cons.1 hr with h1 | h1
          · subst h1; exact ⟨rfl, rfl⟩
          · exact ih out2 hrec r h1

theorem clean_brent_price_ok_mem (rows : List RawBrentRow) (out : List BrentRow)
    (h : clean_brent_price rows = .ok out) :
    (∀ r ∈ out, r.date.isSome ∧ r.brent_price.isSome) ∧ (out.map BrentRow.date).Nodup := by
  unfold clean_brent_price at h
  dsimp only at h
  rcases hp : parseBrentRows (rows.filter (fun r => r.date.isSome && r.brent_price.isSome))
    with _ | typed <;> rw [hp] at h
  · simp at h
  · simp only [Except.ok.injEq] at h
    subst h
    constructor
    · intro r hr
      have h1 : r ∈ dedupByKeyKeepFirst BrentRow.date typed := (mem_sortBy _ _ r).1 hr
      exact parseBrentRows_mem _ _ hp r (mem_dedupByKeyKeepFirst _ _ r h1)
    · have hperm := (sortBy_perm (fun a b => dateLE a.date b.date)
        (dedupByKeyKeepFirst BrentRow.date typed)).map BrentRow.date
      exact hperm.nodup_iff.2 (nodup_map_dedupByKeyKeepFirst _ _)

theorem clean_fuel_price_ok_mem (df : RawFuelDF) (out : List FuelRow)
    (h : clean_fuel_price df = .ok out) :
    ∀ r ∈ out, r.periodo.isSome ∧ r.precio_surtidor.isSome ∧
      ∃ p, r.producto = some p ∧ p ∈ canonicalProducts := by
  unfold clean_fuel_price at h
  dsimp only at h
  split at h
  · simp at h
  · simp only [Except.ok.injEq] at h
    subst h
    intro r hr
    rw [List.mem_filter] at hr
    obtain ⟨hmem, hprod⟩ := hr
    rcases List.mem_map.1 hmem with ⟨r0, hr0, hre⟩
    have hr1 : r0 ∈ dedupKeepFirst ((df.rows.map coerceFuelRow).filter
        (fun q => q.periodo.isSome && q.precio_surtidor.isSome)) := (mem_sortBy _ _ r0).1 hr0
    have hr2 := mem_dedupKeepFirst _ r0 hr1
    rw [List.mem_filter] at hr2
    have hfields := hr2.2
    simp only [Bool.and_eq_true] at hfields
    constructor
    · rw [← hre]; exact hfields.1
    constructor
    · rw [← hre]; exact hfields.2
    · rw [← hre] at hprod ⊢
      simp only at hprod ⊢
      rcases hpm : (r0.producto.map lowerStr).bind producto_map with _ | p
      · rw [hpm] at hprod; simp at hprod
      · refine ⟨p, rfl, ?_⟩
        rcases Option.bind_eq_some.1 hpm with ⟨s, _, hmap⟩
        exact producto_map_mem s p hmap

/-! ### Claim theorems -/

/-- Evaluation helper: cleaning a single otherwise-valid fuel row whose price cell
parses to `q` yields exactly that row, mapped and typed, whatever the value `q`. -/
theorem clean_fuel_single_priced_row_eval (s : String) (q : ℚ) (hs : parseRat s = some q) :
    clean_fuel_price
      ⟨["periodo", "precio_surtidor", "producto", "provincia", "bandera", "volumen"],
       [⟨some "2025/03", some s, some "gnc", some "Buenos Aires", some "YPF", some 100⟩]⟩ =
      .ok [⟨some (2025, 3), some q, some "GNC", some "Buenos Aires", some "YPF", some 100⟩] := by
  unfold clean_fuel_price
  dsimp only
  rw [if_neg (by decide)]
  have h1 : coerceFuelRow ⟨some "2025/03", some s, some "gnc", some "Buenos Aires",
      some "YPF", some 100⟩ =
      ⟨some (2025, 3), some q, some "gnc", some "Buenos Aires", some "YPF", some 100⟩ := by
    unfold coerceFuelRow
    rw [show (Option.some "2025/03").bind parseYM = some (2025, 3) from rfl]
    rw [show (Option.some s).bind parseRat = parseRat s from rfl, hs]
  simp only [List.map_cons, List.map_nil, h1]
  simp [dedupKeepFirst, sortBy, insertBy, lowerStr, producto_map]

/-- Claim C1, counterexample: an input row with `precio_surtidor = 0.5` (< 1.0) IS
present in the cleaned output — `clean_fuel_price` applies no pump-price floor. -/
theorem clean_fuel_price_keeps_price_below_floor :
    clean_fuel_price
      ⟨["periodo", "precio_surtidor", "producto", "provincia", "bandera", "volumen"],
       [⟨some "2025/03", some "0.5", some "gnc", some "Buenos Aires", some "YPF", some 100⟩]⟩ =
      .ok [⟨some (2025, 3), some (1/2), some "GNC", some "Buenos Aires", some "YPF",
        some 100⟩] ∧
    ((1 : ℚ)/2) < 1 := by
  refine ⟨clean_fuel_single_priced_row_eval "0.5" (1/2) ?_, by norm_num⟩
  show some ((0 : ℚ) + (5 : ℚ) / (10 : ℚ) ^ (1 : Nat)) = some (1/2)
  norm_num

/-- Claim C1 (amended): `clean_fuel_price` applies no pump-price floor: an
otherwise-valid row whose pump price parses to any `q < 1` is retained in the
cleaned output with that price. -/
theorem clean_fuel_price_no_price_floor (s : String) (q : ℚ)
    (hs : parseRat s = some q) (_hq : q < 1) :
    clean_fuel_price
      ⟨["periodo", "precio_surtidor", "producto", "provincia", "bandera", "volumen"],
       [⟨some "2025/03", some s, some "gnc", some "Buenos Aires", some "YPF", some 100⟩]⟩ =
      .ok [⟨some (2025, 3), some q, some "GNC", some "Buenos Aires", some "YPF", some 100⟩] :=
  clean_fuel_single_priced_row_eval s q hs

/-- Claim C1, witness: the amended theorem at the concrete price string "0.5". -/
theorem clean_fuel_price_no_price_floor_witness :
    parseRat "0.5" = some (1/2) ∧ ((1 : ℚ)/2) < 1 ∧
    clean_fuel_price
      ⟨["periodo", "precio_surtidor", "producto", "provincia", "bandera", "volumen"],
       [⟨some "2025/03", some "0.5", some "gnc", some "Buenos Aires", some "YPF", some 100⟩]⟩ =
      .ok [⟨some (2025, 3), some (1/2), some "GNC", some "Buenos Aires", some "YPF",
        some 100⟩] :=
  have hp : parseRat "0.5" = some (1/2) := by
    show some ((0 : ℚ) + (5 : ℚ) / (10 : ℚ) ^ (1 : Nat)) = some (1/2)
    norm_num
  ⟨hp, by norm_num, clean_fuel_price_no_price_floor "0.5" (1/2) hp (by norm_num)⟩

/-- Evaluation helper: cleaning two Brent rows that share a date keeps exactly the
first row's price. -/
theorem clean_brent_two_rows_same_date_eval (ds p1s p2s : String) (d : Nat × Nat × Nat)
    (q1 q2 : ℚ) (hd : parseDateISO ds = some d) (h1 : parseRat p1s = some q1)
    (h2 : parseRat p2s = some q2) :
    clean_brent_price [⟨some ds, some p1s⟩, ⟨some ds, some p2s⟩] =
      .ok [⟨some d, some q1⟩] := by
  unfold clean_brent_price
  dsimp only
  have hfilter : List.filter (fun r => r.date.isSome && r.brent_price.isSome)
      [(⟨some ds, some p1s⟩ : RawBrentRow), ⟨some ds, some p2s⟩] =
      [⟨some ds, some p1s⟩, ⟨some ds, some p2s⟩] := by simp
  rw [hfilter]
  have hparse : parseBrentRows [⟨some ds, some p1s⟩, ⟨some ds, some p2s⟩] =
      some [⟨some d, some q1⟩, ⟨some d, some q2⟩] := by
    unfold parseBrentRows
    rw [show (Option.some ds).bind parseDateISO = parseDateISO ds from rfl, hd]
    rw [show (Option.some p1s).bind parseRat = parseRat p1s from rfl, h1]
    unfold parseBrentRows
    rw [show (Option.some ds).bind parseDateISO = parseDateISO ds from rfl, hd]
    rw [show (Option.some p2s).bind parseRat = parseRat p2s from rfl, h2]
    rfl
  rw [hparse]
  simp [dedupByKeyKeepFirst, sortBy, insertBy]

/-- Claim C3, counterexample: for two rows with the same date and prices 10 then 20,
the cleaned output keeps the FIRST-seen price 10, not the last-seen 20. -/
theorem clean_brent_dedup_keeps_first_counterexample :
    clean_brent_price [⟨some "2024-01-01", some "10"⟩, ⟨some "2024-01-01", some "20"⟩] =
      .ok [⟨some (2024, 1, 1), some 10⟩] ∧ (10 : ℚ) ≠ 20 :=
  ⟨clean_brent_two_rows_same_date_eval "2024-01-01" "10" "20" (2024, 1, 1) 10 20
    (by decide) (by decide) (by decide), by norm_num⟩

/-- Claim C3 (amended): `clean_brent_price` deduplicates on `date` keeping the
FIRST-seen row's price (`drop_duplicates` default `keep="first"`), not the last. -/
theorem clean_brent_dedup_keeps_first (ds p1s p2s : String) (d : Nat × Nat × Nat) (q1 q2 : ℚ)
    (hd : parseDateISO ds = some d) (h1 : parseRat p1s = some q1)
    (h2 : parseRat p2s = some q2) :
    clean_brent_price [⟨some ds, some p1s⟩, ⟨some ds, some p2s⟩] =
      .ok [⟨some d, some q1⟩] :=
  clean_brent_two_rows_same_date_eval ds p1s p2s d q1 q2 hd h1 h2

/-- Claim C3, witness: the amended theorem at date 2024-01-01 with prices 10, 20. -/
theorem clean_brent_dedup_keeps_first_witness :
    parseDateISO "2024-01-01" = some (2024, 1, 1) ∧
    parseRat "10" = some 10 ∧ parseRat "20" = some 20 ∧
    clean_brent_price [⟨some "2024-01-01", some "10"⟩, ⟨some "2024-01-01", some "20"⟩] =
      .ok [⟨some (2024, 1, 1), some 10⟩] :=
  ⟨by decide, by decide, by decide,
   clean_brent_dedup_keeps_first "2024-01-01" "10" "20" (2024, 1, 1) 10 20
     (by decide) (by decide) (by decide)⟩

/-- Claim C8, counterexample: `clean_brent_price` DOES raise on a malformed date
string and on a non-numeric price string (`pd.to_datetime` without coercion,
`astype(float)`), contradicting the claim that the cleaners never raise. -/
theorem clean_brent_raises_on_malformed :
    clean_brent_price [⟨some "not-a-date", some "80.5"⟩] = .error () ∧
    clean_brent_price [⟨some "2024-01-01", some "abc"⟩] = .error () := ⟨by decide, by decide⟩

/-- Claim C8 (amended): the FUEL cleaner never raises on unparsable date or numeric
values — whenever the required columns are present it returns a cleaned artifact,
and unparsable `periodo`/`precio_surtidor` cells are coerced to null and those rows
dropped; `clean_brent_price`, by contrast, raises (see the counterexample). -/
theorem clean_fuel_never_raises_on_values (cols : List String) (rows : List RawFuelRow)
    (h : missingFuelCols cols = []) :
    ∃ out, clean_fuel_price ⟨cols, rows⟩ = .ok out ∧
      ∀ r ∈ out, r.periodo.isSome ∧ r.precio_surtidor.isSome := by
  rcases hres : clean_fuel_price ⟨cols, rows⟩ with e | out
  · exfalso
    unfold clean_fuel_price at hres
    dsimp only at hres
    rw [if_neg (by simp [h])] at hres
    exact Except.noConfusion hres
  · exact ⟨out, rfl, fun r hr =>
      ⟨(clean_fuel_price_ok_mem _ _ hres r hr).1, (clean_fuel_price_ok_mem _ _ hres r hr).2.1⟩⟩

/-- Claim C8, witness: the amended theorem on a fuel row whose date and price cells
are both unparsable. -/
theorem clean_fuel_never_raises_on_values_witness :
    missingFuelCols ["periodo", "precio_surtidor", "producto", "provincia", "bandera",
      "volumen"] = [] ∧
    ∃ out, clean_fuel_price
      ⟨["periodo", "precio_surtidor", "producto", "provincia", "bandera", "volumen"],
       [⟨some "not a period", some "not a number", some "gnc", some "Buenos Aires",
         some "YPF", some 100⟩]⟩ = .ok out ∧
      ∀ r ∈ out, r.periodo.isSome ∧ r.precio_surtidor.isSome :=
  ⟨by decide, clean_fuel_never_raises_on_values _ _ (by decide)⟩

/-- Evaluation helper: the monthly USD/ARS analytics aggregate of a two-day month is
the pair of column means together with the mean of the daily spread column and a
record count of 2. -/
theorem dollar_two_day_month_eval (y m d1 d2 : Nat) (o1 o2 b1 b2 c1 c2 : ℚ) :
    dollar_price_aggs_for_analytics
      [⟨(y, m, d1), some o1, some b1, some c1⟩, ⟨(y, m, d2), some o2, some b2, some c2⟩] =
      [⟨y, m, (o1 + o2)/2, (b1 + b2)/2, (c1 + c2)/2, 2⟩] := by
  unfold dollar_price_aggs_for_analytics
  simp only [List.map_cons, List.map_nil]
  simp [dedupKeepFirst, sortBy, insertBy, meanOpt, List.filterMap, List.filter]

/-- Claim C2, counterexample: for official sells 100, 102 and parallel sells 180,
184, the monthly aggregate is official 101, parallel 182, but its spread is
4090/51 (about 80.196) — the mean of the DAILY spreads — which differs from
(182 − 101)/101 × 100 = 8100/101 (about 80.198) by more than 0.001. -/
theorem dollar_monthly_spread_counterexample :
    dollar_price_aggs_for_analytics
      [⟨(2025, 1, 2), some 100, some 180, some (brechaDaily 100 180)⟩,
       ⟨(2025, 1, 9), some 102, some 184, some (brechaDaily 102 184)⟩] =
      [⟨2025, 1, 101, 182, 4090/51, 2⟩] ∧
    (4090/51 : ℚ) ≠ spec_spread_pct 101 182 ∧
    |(4090/51 : ℚ) - 80198/1000| > 1/1000 := by
  refine ⟨?_, ?_, ?_⟩
  · have h := dollar_two_day_month_eval 2025 1 2 9 100 102 180 184
      (brechaDaily 100 180) (brechaDaily 102 184)
    norm_num [brechaDaily] at h ⊢
    exact h
  · norm_num [spec_spread_pct]
  · have hneg : (4090/51 : ℚ) - 80198/1000 < 0 := by norm_num
    rw [abs_of_neg hneg]
    norm_num

/-- Claim C2 (amended): the monthly analytics aggregate has official rate
(o1 + o2)/2, parallel rate (b1 + b2)/2, and a spread equal to the MEAN OF THE
DAILY spread percentages, not the spread recomputed from the monthly rates. -/
theorem dollar_monthly_spread_is_mean_of_daily (y m d1 d2 : Nat) (o1 o2 b1 b2 : ℚ) :
    dollar_price_aggs_for_analytics
      [⟨(y, m, d1), some o1, some b1, some (brechaDaily o1 b1)⟩,
       ⟨(y, m, d2), some o2, some b2, some (brechaDaily o2 b2)⟩] =
      [⟨y, m, (o1 + o2)/2, (b1 + b2)/2, (brechaDaily o1 b1 + brechaDaily o2 b2)/2, 2⟩] :=
  dollar_two_day_month_eval y m d1 d2 o1 o2 b1 b2 (brechaDaily o1 b1) (brechaDaily o2 b2)

/-- Claim C9 (confirmed): a fuel aggregation bucket holding exactly two rows with
prices `a ≤ b` and volumes `u`, `v` aggregates to median price (a + b)/2 and total
volume u + v. -/
theorem fuel_aggs_two_row_bucket (ym : Nat × Nat) (prov band prod : String) (a b u v : ℚ)
    (hab : a ≤ b) :
    fuel_price_aggs
      [⟨some ym, some a, some prod, some prov, some band, some u⟩,
       ⟨some ym, some b, some prod, some prov, some band, some v⟩] =
      [⟨ym, prov, band, prod, (a + b)/2, u + v⟩] := by
  unfold fuel_price_aggs
  simp only [List.filter_cons, List.filter_nil]
  simp [fuelKeyOf, dedupKeepFirst, sortBy, insertBy, medianOpt, List.filterMap, List.filter,
    hab, List.getD]

/-- Claim C9, witness: prices 100 and 120 with volumes 1000 and 2000 in one bucket
yield median 110 and total volume 3000. -/
theorem fuel_aggs_two_row_bucket_witness :
    (100 : ℚ) ≤ 120 ∧
    fuel_price_aggs
      [⟨some (2022, 1), some 100, some "NAFTA GRADO 2", some "Buenos Aires", some "YPF",
        some 1000⟩,
       ⟨some (2022, 1), some 120, some "NAFTA GRADO 2", some "Buenos Aires", some "YPF",
        some 2000⟩] =
      [⟨(2022, 1), "Buenos Aires", "YPF", "NAFTA GRADO 2", 110, 3000⟩] := by
  have h := fuel_aggs_two_row_bucket (2022, 1) "Buenos Aires" "YPF" "NAFTA GRADO 2"
    100 120 1000 2000 (by norm_num)
  norm_num at h
  exact ⟨by norm_num, h⟩

/-- Claim C4 (confirmed): every accepted cleaning run satisfies the artifact
invariants — Brent: no null date or price and no duplicate dates; fuel: no null
`periodo`/`precio_surtidor`/`producto` and every product in the canonical
vocabulary. -/
theorem cleaners_invariants (braw : List RawBrentRow) (bout : List BrentRow)
    (fdf : RawFuelDF) (fout : List FuelRow)
    (hb : clean_brent_price braw = .ok bout) (hf : clean_fuel_price fdf = .ok fout) :
    (∀ r ∈ bout, r.date.isSome ∧ r.brent_price.isSome) ∧
    (bout.map BrentRow.date).Nodup ∧
    (∀ r ∈ fout, r.periodo.isSome ∧ r.precio_surtidor.isSome ∧
      ∃ p, r.producto = some p ∧ p ∈ canonicalProducts) :=
  ⟨(clean_brent_price_ok_mem braw bout hb).1, (clean_brent_price_ok_mem braw bout hb).2,
   clean_fuel_price_ok_mem fdf fout hf⟩

/-- Claim C4, witness: the invariants theorem applied to concrete accepted Brent
and fuel inputs. -/
theorem cleaners_invariants_witness :
    (∀ r ∈ ([⟨some (2024, 1, 1), some 80⟩, ⟨some (2024, 1, 2), some 81⟩] : List BrentRow),
      r.date.isSome ∧ r.brent_price.isSome) ∧
    (([⟨some (2024, 1, 1), some 80⟩, ⟨some (2024, 1, 2), some 81⟩] : List BrentRow).map
      BrentRow.date).Nodup ∧
    (∀ r ∈ ([⟨some (2025, 1), some 100, some "GNC", some "Buenos Aires", some "YPF",
        some 10⟩] : List FuelRow),
      r.periodo.isSome ∧ r.precio_surtidor.isSome ∧
      ∃ p, r.producto = some p ∧ p ∈ canonicalProducts) :=
  cleaners_invariants
    [⟨some "2024-01-02", some "81"⟩, ⟨some "2024-01-01", some "80"⟩]
    [⟨some (2024, 1, 1), some 80⟩, ⟨some (2024, 1, 2), some 81⟩]
    ⟨["periodo", "precio_surtidor", "producto", "provincia", "bandera", "volumen"],
     [⟨some "2025/01", some "100", some "gnc", some "Buenos Aires", some "YPF", some 10⟩]⟩
    [⟨some (2025, 1), some 100, some "GNC", some "Buenos Aires", some "YPF", some 10⟩]
    (by decide) (by decide)

/-- Claim C5 (confirmed): `clean_fuel_price` fails if and only if some required
column is absent after name normalization; the error carries exactly the missing
names, and — the statement holding for every row list — it is raised before any
row-level processing. -/
theorem clean_fuel_schema_error_iff (cols : List String) (rows : List RawFuelRow)
    (e : SchemaError) :
    clean_fuel_price ⟨cols, rows⟩ = .error e ↔
      ((∃ c ∈ requiredFuelCols, c ∉ cols.map normalizeCol) ∧
        e = .missingCols (missingFuelCols cols)) := by
  have hiff : missingFuelCols cols ≠ [] ↔
      ∃ c ∈ requiredFuelCols, c ∉ cols.map normalizeCol := by
    unfold missingFuelCols
    rw [Ne, List.filter_eq_nil_iff]
    push_neg
    simp only [decide_eq_true_eq]
  unfold clean_fuel_price
  dsimp only
  split_ifs with hmiss
  · constructor
    · intro h
      injection h with h1
      exact ⟨hiff.1 hmiss, by rw [← h1]⟩
    · rintro ⟨_, he⟩
      rw [he]
  · constructor
    · intro h
      simp at h
    · rintro ⟨hex, _⟩
      exact absurd (hiff.2 hex) hmiss

/-- Claim C6, counterexample: `load_fuel_to_staging` (COPY into a synthetic-key
table) and `load_to_redshift` (plain INSERT) are NOT idempotent — loading the same
one-row artifact twice with truncate = false duplicates the row. -/
theorem append_loads_duplicate_rows :
    (load_fuel_to_staging (load_fuel_to_staging [] [⟨some (2025, 1), some 100, some "GNC",
        some "Buenos Aires", some "YPF", some 10⟩] false).1
      [⟨some (2025, 1), some 100, some "GNC", some "Buenos Aires", some "YPF",
        some 10⟩] false).1 ≠
      (load_fuel_to_staging [] [⟨some (2025, 1), some 100, some "GNC", some "Buenos Aires",
        some "YPF", some 10⟩] false).1 ∧
    (load_to_redshift (load_to_redshift ([] : List ((Nat × Nat × Nat) × ℚ))
        [⟨(2024, 1, 1), 80⟩] false).1 [⟨(2024, 1, 1), 80⟩] false).1 ≠
      (load_to_redshift [] [⟨(2024, 1, 1), 80⟩] false).1 := ⟨by decide, by decide⟩

/-- Claim C6 (amended): the `ON CONFLICT DO UPDATE` loaders (Brent and USD/ARS
staging, all three analytics loaders) are idempotent: re-loading the same key-unique
artifact with truncate = false leaves the table unchanged; the append-based fuel
staging and Redshift loaders are not (see the counterexample). -/
theorem upsert_loads_idempotent
    (tB dfB : List ((Nat × Nat × Nat) × ℚ))
    (tU dfU : List ((Nat × Nat × Nat) × (ℚ × ℚ × Option ℚ)))
    (tBA dfBA : List ((Nat × Nat) × (ℚ × ℚ × ℚ × Nat)))
    (tFA dfFA : List (((Nat × Nat) × String × String × String) × (ℚ × ℚ)))
    (tUA dfUA : List ((Nat × Nat) × (ℚ × ℚ × ℚ × Nat)))
    (hB : (dfB.map Prod.fst).Nodup) (hU : (dfU.map Prod.fst).Nodup)
    (hBA : (dfBA.map Prod.fst).Nodup) (hFA : (dfFA.map Prod.fst).Nodup)
    (hUA : (dfUA.map Prod.fst).Nodup) :
    (load_brent_to_staging (load_brent_to_staging tB dfB false).1 dfB false).1 =
      (load_brent_to_staging tB dfB false).1 ∧
    (load_usd_ars_to_staging (load_usd_ars_to_staging tU dfU false).1 dfU false).1 =
      (load_usd_ars_to_staging tU dfU false).1 ∧
    (load_brent_to_analytics (load_brent_to_analytics tBA dfBA false).1 dfBA false).1 =
      (load_brent_to_analytics tBA dfBA false).1 ∧
    (load_fuel_to_analytics (load_fuel_to_analytics tFA dfFA false).1 dfFA false).1 =
      (load_fuel_to_analytics tFA dfFA false).1 ∧
    (load_usd_ars_to_analytics (load_usd_ars_to_analytics tUA dfUA false).1 dfUA false).1 =
      (load_usd_ars_to_analytics tUA dfUA false).1 :=
  ⟨upsertTable_idem tB dfB hB, upsertTable_idem tU dfU hU, upsertTable_idem tBA dfBA hBA,
   upsertTable_idem tFA dfFA hFA, upsertTable_idem tUA dfUA hUA⟩

/-- Claim C6, witness: the idempotence theorem at concrete one/two-row artifacts. -/
theorem upsert_loads_idempotent_witness :
    (([⟨(2024, 1, 1), (80 : ℚ)⟩, ⟨(2024, 1, 2), 81⟩].map Prod.fst).Nodup) ∧
    (load_brent_to_staging (load_brent_to_staging [⟨(2023, 1, 1), 70⟩]
        [⟨(2024, 1, 1), 80⟩, ⟨(2024, 1, 2), 81⟩] false).1
      [⟨(2024, 1, 1), 80⟩, ⟨(2024, 1, 2), 81⟩] false).1 =
      (load_brent_to_staging [⟨(2023, 1, 1), 70⟩]
        [⟨(2024, 1, 1), 80⟩, ⟨(2024, 1, 2), 81⟩] false).1 ∧
    (load_usd_ars_to_staging (load_usd_ars_to_staging []
        [⟨(2024, 1, 1), 100, 180, some 80⟩] false).1
      [⟨(2024, 1, 1), 100, 180, some 80⟩] false).1 =
      (load_usd_ars_to_staging [] [⟨(2024, 1, 1), 100, 180, some 80⟩] false).1 ∧
    (load_brent_to_analytics (load_brent_to_analytics []
        [⟨(2024, 1), 80, 75, 85, 20⟩] false).1 [⟨(2024, 1), 80, 75, 85, 20⟩] false).1 =
      (load_brent_to_analytics [] [⟨(2024, 1), 80, 75, 85, 20⟩] false).1 ∧
    (load_fuel_to_analytics (load_fuel_to_analytics []
        [⟨((2024, 1), "BA", "YPF", "GNC"), 110, 3000⟩] false).1
      [⟨((2024, 1), "BA", "YPF", "GNC"), 110, 3000⟩] false).1 =
      (load_fuel_to_analytics [] [⟨((2024, 1), "BA", "YPF", "GNC"), 110, 3000⟩] false).1 ∧
    (load_usd_ars_to_analytics (load_usd_ars_to_analytics []
        [⟨(2024, 1), 101, 182, 80, 2⟩] false).1 [⟨(2024, 1), 101, 182, 80, 2⟩] false).1 =
      (load_usd_ars_to_analytics [] [⟨(2024, 1), 101, 182, 80, 2⟩] false).1 :=
  ⟨by decide,
   upsert_loads_idempotent [⟨(2023, 1, 1), 70⟩] [⟨(2024, 1, 1), 80⟩, ⟨(2024, 1, 2), 81⟩]
     [] [⟨(2024, 1, 1), 100, 180, some 80⟩] [] [⟨(2024, 1), 80, 75, 85, 20⟩]
     [] [⟨((2024, 1), "BA", "YPF", "GNC"), 110, 3000⟩] [] [⟨(2024, 1), 101, 182, 80, 2⟩]
     (by decide) (by decide) (by decide) (by decide) (by decide)⟩

/-- Claim C7 (confirmed): each load unit is all-or-nothing — a failure injected at
any statement leaves the committed table unchanged and marks the run raised, the
connection ends closed on every exit path, and the successful run commits exactly
the loader's result. -/
theorem load_unit_all_or_nothing {α : Type}
    (tB : List ((Nat × Nat × Nat) × ℚ)) (dfB : List ((Nat × Nat × Nat) × ℚ))
    (tF : List FuelRow) (dfF : List FuelRow) (tR : List α) (dfR : List α)
    (truncate : Bool) (failAt : Option Nat) (i : Nat)
    (hfail : failAt = some i) (hi : i < (brentStagingOps dfB truncate).length) :
    runLoadUnit (brentStagingOps dfB truncate) failAt tB = ⟨tB, true, true⟩ ∧
    runLoadUnit (fuelStagingOps dfF truncate) failAt tF = ⟨tF, true, true⟩ ∧
    runLoadUnit (redshiftOps dfR truncate) failAt tR = ⟨tR, true, true⟩ ∧
    (∀ fa : Option Nat,
      (runLoadUnit (brentStagingOps dfB truncate) fa tB).connClosed = true ∧
      (runLoadUnit (fuelStagingOps dfF truncate) fa tF).connClosed = true ∧
      (runLoadUnit (redshiftOps dfR truncate) fa tR).connClosed = true) ∧
    (runLoadUnit (brentStagingOps dfB truncate) none tB).committed =
      (load_brent_to_staging tB dfB truncate).1 ∧
    (runLoadUnit (fuelStagingOps dfF truncate) none tF).committed =
      (load_fuel_to_staging tF dfF truncate).1 ∧
    (runLoadUnit (redshiftOps dfR truncate) none tR).committed =
      (if truncate then [] else tR) ++ dfR := by
  subst hfail
  have hlF : i < (fuelStagingOps dfF truncate).length := by
    cases truncate <;> simpa [fuelStagingOps, brentStagingOps] using hi
  have hlR : i < (redshiftOps dfR truncate).length := by
    cases truncate <;> simpa [redshiftOps, brentStagingOps] using hi
  refine ⟨runLoadUnit_fail _ i tB hi, runLoadUnit_fail _ i tF hlF, runLoadUnit_fail _ i tR hlR,
    fun fa => ⟨runLoadUnit_closed _ _ _, runLoadUnit_closed _ _ _, runLoadUnit_closed _ _ _⟩,
    ?_, ?_, ?_⟩
  · cases truncate <;> rfl
  · cases truncate <;> rfl
  · cases truncate <;> rfl

/-- Claim C7, witness: the all-or-nothing theorem with a failure injected at the
insert statement of a truncating load. -/
theorem load_unit_all_or_nothing_witness :
    runLoadUnit (brentStagingOps [⟨(2024, 1, 1), (80 : ℚ)⟩] true) (some 1) [⟨(2023, 1, 1), 70⟩] =
      ⟨[⟨(2023, 1, 1), 70⟩], true, true⟩ ∧
    runLoadUnit (fuelStagingOps [] true) (some 1) [] = ⟨[], true, true⟩ ∧
    runLoadUnit (redshiftOps [(5 : Nat)] true) (some 1) [] = ⟨[], true, true⟩ ∧
    (∀ fa : Option Nat,
      (runLoadUnit (brentStagingOps [⟨(2024, 1, 1), (80 : ℚ)⟩] true) fa
        [⟨(2023, 1, 1), 70⟩]).connClosed = true ∧
      (runLoadUnit (fuelStagingOps [] true) fa []).connClosed = true ∧
      (runLoadUnit (redshiftOps [(5 : Nat)] true) fa []).connClosed = true) ∧
    (runLoadUnit (brentStagingOps [⟨(2024, 1, 1), (80 : ℚ)⟩] true) none
      [⟨(2023, 1, 1), 70⟩]).committed =
      (load_brent_to_staging [⟨(2023, 1, 1), 70⟩] [⟨(2024, 1, 1), 80⟩] true).1 ∧
    (runLoadUnit (fuelStagingOps [] true) none []).committed =
      (load_fuel_to_staging [] [] true).1 ∧
    (runLoadUnit (redshiftOps [(5 : Nat)] true) none []).committed =
      (if true then [] else []) ++ [(5 : Nat)] :=
  load_unit_all_or_nothing [⟨(2023, 1, 1), 70⟩] [⟨(2024, 1, 1), 80⟩] [] [] [] [(5 : Nat)]
    true (some 1) 1 rfl (by decide)

/-- Claim C10 (confirmed): an empty DataFrame makes `load_to_redshift` return 0 and
leave the table untouched, even when truncate is set. -/
theorem load_to_redshift_empty_noop {α : Type} (table : List α) (truncate : Bool) :
    load_to_redshift table [] truncate = (table, 0) := rfl

end EnergyData
